import Mathlib

/-!
A verification development for the expense-management frontend of the
Surmai trip-planning application.

The development shallowly embeds the logic of the reviewed source files:

* `src/components/trip/expenses/ExpensesPanel.tsx` — form validation and
  the save flow (`onSave`), the delete flow (`handleDelete`), expense
  sorting (`sortedExpenses`), the converted total (`totalExpenses`), the
  per-category aggregation (`categoryTotals`, `sortedCategories`), and the
  rendered expense cards (`expenseCards`);
* `src/components/trip/transportation/FlightForm.tsx` — the flight submit
  flow (`handleFormSubmit`) with its linked-expense handling;
* the expense data-access module (`listExpenses`, `createExpense`,
  `updateExpense`, `deleteExpense` over the backend collection).

Modelling conventions:

* JavaScript numbers are modelled as exact rationals (`ℚ`);
* calendar timestamps are modelled as integers; the date-conversion
  helpers (`convertSavedToBrowserDate`, `fakeAsUtcString`, and the
  browser `Date(..).getTime()`), which live in library files outside the
  reviewed sources, are taken as abstract function parameters;
* `String.trim` of JavaScript is modelled on the character list
  (`strTrim`), and `localeCompare` as the three-valued comparison of the
  string order;
* a JavaScript object used as a dictionary is modelled as an association
  list whose key order is insertion order;
* the stable `Array.prototype.sort` of JavaScript is modelled by
  `List.insertionSort`, the stable sort of Mathlib, taking an element
  `a` before `b` exactly when the comparator is nonpositive on `(a, b)`;
* asynchronous network calls are modelled by passing their outcomes
  (success value or failure) as explicit arguments and recording the
  issued calls in the result.
-/

namespace Surmai

/-- Monetary amount together with its ISO currency code, the `Money`
shape (`{ value, currency }`) used by expenses and budgets. -/
structure Money where
  value : ℚ
  currency : String
deriving DecidableEq, Repr

/-- An expense record as the panel sees it: the raw fields stored by the
backend plus the derived optional `convertedCost` attached by the
currency normalizer.  The backend bookkeeping field `created` is carried
for the list sort of the data-access module. -/
structure Expense where
  id : String
  trip : String := ""
  name : String := ""
  cost : Option Money := none
  convertedCost : Option Money := none
  occurredOn : Option Int := none
  category : Option String := none
  notes : Option String := none
  attachmentReferences : List String := []
  created : Int := 0
deriving DecidableEq, Repr

/-- A point-in-time conversion rate from a base currency to a target
currency. -/
structure ConversionRate where
  base : String
  target : String
  rate : ℚ
deriving DecidableEq, Repr

/-- The fragment of the user profile the panel reads: the preferred
currency code. -/
structure User where
  currencyCode : Option String := none
deriving DecidableEq, Repr

/-- The fragment of a trip the panel reads: its id and optional budget. -/
structure Trip where
  id : String
  budget : Option Money := none
deriving DecidableEq, Repr

/-- An uploaded attachment reference. -/
structure Attachment where
  id : String
  name : String := ""
deriving DecidableEq, Repr

/-! ## Converted amounts and category aggregation (`ExpensesPanel`) -/

/-- The amount a normalized expense contributes to converted sums:
`exp.convertedCost?.value || 0` — the converted value when present,
zero otherwise. -/
def amountOf (e : Expense) : ℚ :=
  (e.convertedCost.map Money.value).getD 0

/-- The grouping key of an expense: `exp.category || 'other'` — the
category when present and nonempty, the fixed tag `other` otherwise. -/
def catOf (e : Expense) : String :=
  match e.category with
  | none => "other"
  | some c => if c = "" then "other" else c

/-- The converted total `totalExpenses`: the sum over the list of
`exp.convertedCost?.value || 0`. -/
def totalExpenses (l : List Expense) : ℚ :=
  (l.map amountOf).sum

/-- One step of the JavaScript dictionary update
`acc[cat] = (acc[cat] || 0) + v` on an association list: add `v` to the
entry of the key when present, append a fresh entry otherwise. -/
def upsert (acc : List (String × ℚ)) (c : String) (v : ℚ) : List (String × ℚ) :=
  match acc with
  | [] => [(c, v)]
  | (k, w) :: rest => if k = c then (k, w + v) :: rest else (k, w) :: upsert rest c v

/-- The per-category totals `categoryTotals`: a reduce over the expense
list that adds `exp.convertedCost?.value || 0` to the entry of the key
`exp.category || 'other'`, in a dictionary whose key order is insertion
order. -/
def categoryTotals (l : List Expense) : List (String × ℚ) :=
  l.foldl (fun acc e => upsert acc (catOf e) (amountOf e)) []

/-- The descending-by-amount order used by
`Object.entries(categoryTotals).sort(([, a], [, b]) => b - a)`: the pair
`x` may come before `y` exactly when the comparator value `y.2 - x.2` is
nonpositive. -/
def catLe (x y : String × ℚ) : Prop := y.2 ≤ x.2

instance : DecidableRel catLe := fun x y => inferInstanceAs (Decidable (y.2 ≤ x.2))

/-- The category list shown by the panel: the per-category totals sorted
descending by summed amount with the stable sort of the runtime. -/
def sortedCategories (l : List Expense) : List (String × ℚ) :=
  (categoryTotals l).insertionSort catLe

/-- Accumulates a key at the end of a key list unless already present;
folding it over a list of keys yields the keys in the order of their
first occurrence. -/
def addKey (ks : List String) (c : String) : List String :=
  if c ∈ ks then ks else ks ++ [c]

/-- The list of keys in order of first occurrence, without repetition. -/
def firstOccurrences (cs : List String) : List String :=
  cs.foldl addKey []

/-- Dictionary read `acc[c] || 0` on an association list. -/
def lookupD (acc : List (String × ℚ)) (c : String) : ℚ :=
  match acc with
  | [] => 0
  | (k, w) :: rest => if k = c then w else lookupD rest c

/-! ### Lemmas about `upsert` and the aggregation fold -/

theorem upsert_sum (acc : List (String × ℚ)) (c : String) (v : ℚ) :
    ((upsert acc c v).map Prod.snd).sum = (acc.map Prod.snd).sum + v := by
  induction acc with
  | nil => simp [upsert]
  | cons kw rest ih =>
    obtain ⟨k, w⟩ := kw
    by_cases h : k = c
    · simp [upsert, h]
      ring
    · simp [upsert, h, ih]
      ring

theorem upsert_lookup (acc : List (String × ℚ)) (c : String) (v : ℚ) (c' : String) :
    lookupD (upsert acc c v) c' =
      (if c' = c then lookupD acc c' + v else lookupD acc c') := by
  induction acc with
  | nil =>
    by_cases h : c' = c
    · subst h; simp [upsert, lookupD]
    · have hcc : ¬ (c = c') := fun hh => h hh.symm
      simp [upsert, lookupD, h, hcc]
  | cons kw rest ih =>
    obtain ⟨k, w⟩ := kw
    by_cases hkc : k = c
    · subst hkc
      by_cases h : c' = k
      · subst h; simp [upsert, lookupD]
      · have hk : ¬ (k = c') := fun hh => h hh.symm
        simp [upsert, lookupD, h, hk]
    · by_cases h : k = c'
      · subst h
        have hcc : ¬ (k = c) := hkc
        simp [upsert, lookupD, hcc, fun hh : k = c => hkc hh]
      · simp [upsert, lookupD, hkc, h, ih]

theorem upsert_keys (acc : List (String × ℚ)) (c : String) (v : ℚ) :
    (upsert acc c v).map Prod.fst = addKey (acc.map Prod.fst) c := by
  induction acc with
  | nil => simp [upsert, addKey]
  | cons kw rest ih =>
    obtain ⟨k, w⟩ := kw
    by_cases h : k = c
    · simp [upsert, h, addKey]
    · have hne : ¬ (c = k) := fun hh => h hh.symm
      by_cases hmem : c ∈ rest.map Prod.fst
      · simp [upsert, h, ih, addKey, hmem, hne]
      · simp [upsert, h, ih, addKey, hmem, hne]

theorem categoryTotals_fold_sum (l : List Expense) :
    ∀ acc : List (String × ℚ),
      (((l.foldl (fun acc e => upsert acc (catOf e) (amountOf e)) acc)).map Prod.snd).sum =
        (acc.map Prod.snd).sum + (l.map amountOf).sum := by
  induction l with
  | nil => intro acc; simp
  | cons e rest ih =>
    intro acc
    simp only [List.foldl_cons, List.map_cons, List.sum_cons]
    rw [ih, upsert_sum]
    ring

theorem categoryTotals_fold_lookup (l : List Expense) :
    ∀ (acc : List (String × ℚ)) (c : String),
      lookupD (l.foldl (fun acc e => upsert acc (catOf e) (amountOf e)) acc) c =
        lookupD acc c + ((l.filter (fun e => catOf e == c)).map amountOf).sum := by
  induction l with
  | nil => intro acc c; simp
  | cons e rest ih =>
    intro acc c
    simp only [List.foldl_cons]
    rw [ih, upsert_lookup]
    by_cases h : c = catOf e
    · simp [List.filter_cons, h.symm]
      ring
    · have hne : ¬ ((catOf e == c) = true) := by
        simpa using fun hh => h hh.symm
      simp [List.filter_cons, hne, h]

theorem categoryTotals_fold_keys (l : List Expense) :
    ∀ acc : List (String × ℚ),
      ((l.foldl (fun acc e => upsert acc (catOf e) (amountOf e)) acc)).map Prod.fst =
        (l.map catOf).foldl addKey (acc.map Prod.fst) := by
  induction l with
  | nil => intro acc; simp
  | cons e rest ih =>
    intro acc
    simp only [List.foldl_cons, List.map_cons]
    rw [ih, upsert_keys]

/-- The value of a category in `categoryTotals` is the sum of the
contributed amounts of exactly the expenses grouped under it. -/
theorem categoryTotals_lookup (l : List Expense) (c : String) :
    lookupD (categoryTotals l) c =
      ((l.filter (fun e => catOf e == c)).map amountOf).sum := by
  have h := categoryTotals_fold_lookup l [] c
  simpa [categoryTotals, lookupD] using h

/-- The keys of `categoryTotals` are the grouping keys in order of first
occurrence. -/
theorem categoryTotals_keys (l : List Expense) :
    (categoryTotals l).map Prod.fst = firstOccurrences (l.map catOf) := by
  have h := categoryTotals_fold_keys l []
  simpa [categoryTotals, firstOccurrences] using h

/-- The values of `categoryTotals` add up to the sum of all contributed
amounts. -/
theorem categoryTotals_sum (l : List Expense) :
    ((categoryTotals l).map Prod.snd).sum = (l.map amountOf).sum := by
  have h := categoryTotals_fold_sum l []
  simpa [categoryTotals] using h

/-- Sample expense list used by concrete witness instances: three
converted expenses in two categories. -/
def sampleConverted : List Expense :=
  [{ id := "a", category := some "food", convertedCost := some ⟨10, "EUR"⟩ },
   { id := "b", convertedCost := some ⟨5, "EUR"⟩ },
   { id := "c", category := some "food", convertedCost := some ⟨7, "EUR"⟩ }]

/-- C4: for every expense list in which each expense has a
`convertedCost` (all rates resolvable), the sum over categories of the
per-category converted totals equals the sum of all individual
`convertedCost` values: the category grouping partitions the list. -/
theorem claim_C4_category_partition (l : List Expense)
    (h : ∀ e ∈ l, e.convertedCost.isSome) :
    ((categoryTotals l).map Prod.snd).sum =
      ((l.filterMap (fun e => e.convertedCost)).map Money.value).sum := by
  rw [categoryTotals_sum]
  induction l with
  | nil => simp
  | cons e rest ih =>
    have he := h e (by simp)
    obtain ⟨m, hm⟩ := Option.isSome_iff_exists.mp he
    have hrest : ∀ x ∈ rest, x.convertedCost.isSome := fun x hx => h x (by simp [hx])
    simp [List.filterMap_cons, hm, amountOf, ih hrest]

/-- Witness for C4 at a concrete three-expense list. -/
theorem claim_C4_category_partition_witness :
    (∀ e ∈ sampleConverted, e.convertedCost.isSome) ∧
      ((categoryTotals sampleConverted).map Prod.snd).sum =
        ((sampleConverted.filterMap (fun e => e.convertedCost)).map Money.value).sum :=
  ⟨by decide, claim_C4_category_partition sampleConverted (by decide)⟩

/-- C5: the category aggregation groups expenses by category (an absent
category mapping to the fixed tag `other`), sums the converted amount per
group with the keys in order of first encounter, and displays the groups
sorted descending by summed amount, ties keeping encounter order (stable
sort). -/
theorem claim_C5_sorted_categories (l : List Expense) :
    (sortedCategories l).Perm (categoryTotals l) ∧
    List.Pairwise catLe (sortedCategories l) ∧
    (categoryTotals l).map Prod.fst = firstOccurrences (l.map catOf) ∧
    (∀ c, lookupD (categoryTotals l) c =
      ((l.filter (fun e => catOf e == c)).map amountOf).sum) ∧
    (∀ e : Expense, e.category = none → catOf e = "other") ∧
    (∀ x y : String × ℚ, x.2 = y.2 → [x, y].Sublist (categoryTotals l) →
      [x, y].Sublist (sortedCategories l)) := by
  refine ⟨List.perm_insertionSort catLe _, ?_, categoryTotals_keys l,
    categoryTotals_lookup l, ?_, ?_⟩
  · haveI : IsTotal (String × ℚ) catLe := ⟨fun x y => le_total y.2 x.2⟩
    haveI : IsTrans (String × ℚ) catLe := ⟨fun _ _ _ h1 h2 => le_trans h2 h1⟩
    exact List.sorted_insertionSort catLe _
  · intro e he; simp [catOf, he]
  · intro x y hxy hsub
    exact List.pair_sublist_insertionSort (le_of_eq hxy.symm) hsub

/-- Witness for C5: the aggregation of the sample list evaluates to the
food total first, and the displayed order is descending. -/
theorem claim_C5_sorted_categories_witness :
    sortedCategories sampleConverted = [("food", 17), ("other", 5)] ∧
      List.Pairwise catLe (sortedCategories sampleConverted) :=
  ⟨by
    norm_num [sortedCategories, categoryTotals, sampleConverted, upsert, catOf,
      amountOf, List.insertionSort, List.orderedInsert, catLe]
    decide,
    (claim_C5_sorted_categories sampleConverted).2.1⟩

/-! ## Expense sorting (`sortedExpenses` in `ExpensesPanel`) -/

/-- Sort columns offered by the panel. -/
inductive ESortBy where
  | date
  | category
  | amount
deriving DecidableEq, Repr

/-- Sort directions offered by the panel. -/
inductive ESortDir where
  | asc
  | desc
deriving DecidableEq, Repr

/-- The date key of the comparator:
`a.occurredOn ? new Date(a.occurredOn).getTime() : 0`, with the browser
time extraction abstracted as `getTime`. -/
def dateKey (getTime : Int → Int) (e : Expense) : Int :=
  (e.occurredOn.map getTime).getD 0

/-- The category key of the comparator: `a.category || ''`. -/
def catKey (e : Expense) : String :=
  e.category.getD ""

/-- Three-valued model of `localeCompare` over the string order. -/
def strCmp (a b : String) : ℚ :=
  if a < b then -1 else if a = b then 0 else 1

/-- The per-column comparison inside the panel comparator. -/
def compareColumn (getTime : Int → Int) (sb : ESortBy) (a b : Expense) : ℚ :=
  match sb with
  | .date => ((dateKey getTime a - dateKey getTime b : Int) : ℚ)
  | .category => strCmp (catKey a) (catKey b)
  | .amount => amountOf a - amountOf b

/-- The full panel comparator: zero when no sort column is selected, the
column comparison when ascending, its negation when descending. -/
def sortComparator (getTime : Int → Int) (sb : Option ESortBy) (dir : ESortDir)
    (a b : Expense) : ℚ :=
  match sb with
  | none => 0
  | some c => if dir = .asc then compareColumn getTime c a b else -(compareColumn getTime c a b)

/-- The order relation a stable sort derives from the comparator: `a` may
stay before `b` exactly when the comparator is nonpositive on `(a, b)`. -/
def jsSortRel (getTime : Int → Int) (sb : Option ESortBy) (dir : ESortDir)
    (a b : Expense) : Prop :=
  sortComparator getTime sb dir a b ≤ 0

instance (getTime : Int → Int) (sb : Option ESortBy) (dir : ESortDir) :
    DecidableRel (jsSortRel getTime sb dir) :=
  fun a b => inferInstanceAs (Decidable (sortComparator getTime sb dir a b ≤ 0))

/-- The sorted expense list of the panel: `[...expenses].sort(...)` with
the stable runtime sort. -/
def sortedExpenses (getTime : Int → Int) (sb : Option ESortBy) (dir : ESortDir)
    (l : List Expense) : List Expense :=
  l.insertionSort (jsSortRel getTime sb dir)

theorem jsSortRel_amount_asc (getTime : Int → Int) (a b : Expense) :
    jsSortRel getTime (some .amount) .asc a b ↔ amountOf a ≤ amountOf b := by
  simp [jsSortRel, sortComparator, compareColumn, sub_nonpos]

theorem jsSortRel_amount_desc (getTime : Int → Int) (a b : Expense) :
    jsSortRel getTime (some .amount) .desc a b ↔ amountOf b ≤ amountOf a := by
  simp [jsSortRel, sortComparator, compareColumn, neg_sub, sub_nonpos]

/-- C6: when no two expenses share a comparison key, sorting by amount
descending is exactly the reverse of sorting by amount ascending; the
comparator treats an absent `convertedCost` as amount zero, an absent
date as time zero and an absent category as the empty string. -/
theorem claim_C6_amount_sort_reversal (getTime : Int → Int) :
    (∀ l : List Expense, l.Pairwise (fun a b => amountOf a ≠ amountOf b) →
      sortedExpenses getTime (some .amount) .desc l =
        (sortedExpenses getTime (some .amount) .asc l).reverse) ∧
    (∀ e : Expense, e.convertedCost = none → amountOf e = 0) ∧
    (∀ e : Expense, e.occurredOn = none → dateKey getTime e = 0) ∧
    (∀ e : Expense, e.category = none → catKey e = "") := by
  refine ⟨?_, ?_, ?_, ?_⟩
  · intro l hdist
    have hsymNe : ∀ {x y : Expense}, amountOf x ≠ amountOf y → amountOf y ≠ amountOf x :=
      fun h => h.symm
    have hpermA := List.perm_insertionSort (jsSortRel getTime (some .amount) .asc) l
    have hpermD := List.perm_insertionSort (jsSortRel getTime (some .amount) .desc) l
    have hA : (sortedExpenses getTime (some .amount) .asc l).Pairwise
        (fun a b => amountOf a ≤ amountOf b) := by
      haveI : IsTotal Expense (jsSortRel getTime (some .amount) .asc) := ⟨fun a b => by
        rcases le_total (amountOf a) (amountOf b) with h | h
        · exact Or.inl ((jsSortRel_amount_asc getTime a b).mpr h)
        · exact Or.inr ((jsSortRel_amount_asc getTime b a).mpr h)⟩
      haveI : IsTrans Expense (jsSortRel getTime (some .amount) .asc) := ⟨fun a b c h1 h2 =>
        (jsSortRel_amount_asc getTime a c).mpr
          (le_trans ((jsSortRel_amount_asc getTime a b).mp h1)
            ((jsSortRel_amount_asc getTime b c).mp h2))⟩
      exact (List.sorted_insertionSort (jsSortRel getTime (some .amount) .asc) l).imp
        (fun h => (jsSortRel_amount_asc getTime _ _).mp h)
    have hD : (sortedExpenses getTime (some .amount) .desc l).Pairwise
        (fun a b => amountOf b ≤ amountOf a) := by
      haveI : IsTotal Expense (jsSortRel getTime (some .amount) .desc) := ⟨fun a b => by
        rcases le_total (amountOf a) (amountOf b) with h | h
        · exact Or.inr ((jsSortRel_amount_desc getTime b a).mpr h)
        · exact Or.inl ((jsSortRel_amount_desc getTime a b).mpr h)⟩
      haveI : IsTrans Expense (jsSortRel getTime (some .amount) .desc) := ⟨fun a b c h1 h2 =>
        (jsSortRel_amount_desc getTime a c).mpr
          (le_trans ((jsSortRel_amount_desc getTime b c).mp h2)
            ((jsSortRel_amount_desc getTime a b).mp h1))⟩
      exact (List.sorted_insertionSort (jsSortRel getTime (some .amount) .desc) l).imp
        (fun h => (jsSortRel_amount_desc getTime _ _).mp h)
    have hNeA : (sortedExpenses getTime (some .amount) .asc l).Pairwise
        (fun a b => amountOf a ≠ amountOf b) :=
      (List.Perm.pairwise_iff hsymNe hpermA).mpr hdist
    have hNeD : (sortedExpenses getTime (some .amount) .desc l).Pairwise
        (fun a b => amountOf a ≠ amountOf b) :=
      (List.Perm.pairwise_iff hsymNe hpermD).mpr hdist
    have hAlt : (sortedExpenses getTime (some .amount) .asc l).Pairwise
        (fun a b => amountOf a < amountOf b) :=
      (hA.and hNeA).imp (fun h => lt_of_le_of_ne h.1 h.2)
    have hDlt : (sortedExpenses getTime (some .amount) .desc l).Pairwise
        (fun a b => amountOf b < amountOf a) :=
      (hD.and hNeD).imp (fun h => lt_of_le_of_ne h.1 h.2.symm)
    have hRevLt : ((sortedExpenses getTime (some .amount) .asc l).reverse).Pairwise
        (fun a b => amountOf b < amountOf a) :=
      List.pairwise_reverse.mpr hAlt
    have hperm : (sortedExpenses getTime (some .amount) .desc l).Perm
        ((sortedExpenses getTime (some .amount) .asc l).reverse) :=
      (hpermD.trans hpermA.symm).trans
        (List.reverse_perm (sortedExpenses getTime (some .amount) .asc l)).symm
    haveI : IsAntisymm Expense (fun a b => amountOf b < amountOf a) :=
      ⟨fun a b h1 h2 => absurd (h1.trans h2) (lt_irrefl _)⟩
    exact List.eq_of_perm_of_sorted hperm hDlt hRevLt
  · intro e he; simp [amountOf, he]
  · intro e he; simp [dateKey, he]
  · intro e he; simp [catKey, he]

/-- Sample list with pairwise distinct amounts (20, 5, 0). -/
def sampleDistinct : List Expense :=
  [{ id := "a", convertedCost := some ⟨5, "EUR"⟩ },
   { id := "b", convertedCost := some ⟨20, "EUR"⟩ },
   { id := "c" }]

/-- Witness for C6 at a concrete three-expense list with distinct
amounts. -/
theorem claim_C6_amount_sort_reversal_witness :
    sampleDistinct.Pairwise (fun a b => amountOf a ≠ amountOf b) ∧
      sortedExpenses (fun t => t) (some .amount) .desc sampleDistinct =
        (sortedExpenses (fun t => t) (some .amount) .asc sampleDistinct).reverse :=
  ⟨by decide, (claim_C6_amount_sort_reversal (fun t => t)).1 sampleDistinct (by decide)⟩

/-! ## Currency normalization and rendered cards -/

/-- Modelled from the spec: the currency conversion helper
(`convertExpenses` in `components/trip/expenses/helper.ts`) is imported
by the panel but its file is not among the provided sources.  Following
section 4.1 of the specification, the target display currency is the trip
budget currency, else the user preferred currency, else the fixed default
code `USD`. -/
def targetCurrency (user : Option User) (trip : Trip) : String :=
  match trip.budget with
  | some b => b.currency
  | none =>
    match user.bind (fun u => u.currencyCode) with
    | some c => c
    | none => "USD"

/-- Rounding to two decimal places. -/
def round2 (q : ℚ) : ℚ := ((round (q * 100) : ℤ) : ℚ) / 100

/-- Rate lookup from a base currency to a target currency in the
supplied rate list. -/
def findRate (rates : List ConversionRate) (base target : String) : Option ℚ :=
  (rates.find? (fun r => r.base == base && r.target == target)).map (fun r => r.rate)

/-- Modelled from the spec: the per-expense conversion step of the
missing helper, following section 4.1 word by word.  When the cost
currency equals the target the cost is kept unchanged as `convertedCost`
(identity conversion, no lookup); otherwise a rate is looked up and the
converted value is the cost value times the rate, rounded to two
decimals; when no rate is found the `convertedCost` field is left
absent. -/
def convertExpense (target : String) (rates : List ConversionRate) (e : Expense) : Expense :=
  match e.cost with
  | none => { e with convertedCost := none }
  | some c =>
    if c.currency = target then { e with convertedCost := some c }
    else
      match findRate rates c.currency target with
      | some r => { e with convertedCost := some ⟨round2 (c.value * r), target⟩ }
      | none => { e with convertedCost := none }

/-- Modelled from the spec: the list-level normalizer of the missing
helper, applying the per-expense conversion step pointwise. -/
def convertExpenses (user : Option User) (trip : Trip) (l : List Expense)
    (rates : List ConversionRate) : List Expense :=
  l.map (convertExpense (targetCurrency user trip) rates)

/-- The data shown on one rendered expense card: the name, the optional
date row, the category badge tag, and the optional amount row — the
amount row renders `exp.convertedCost` and only when it is present. -/
structure ExpenseCard where
  id : String
  nameShown : String
  dateShown : Option Int
  categoryTag : String
  amountShown : Option Money
deriving DecidableEq, Repr

/-- Rendering of one expense card in the panel grid. -/
def renderCard (e : Expense) : ExpenseCard :=
  { id := e.id
    nameShown := e.name
    dateShown := e.occurredOn
    categoryTag := catOf e
    amountShown := e.convertedCost }

/-- The rendered card list of the panel grid. -/
def expenseCards (l : List Expense) : List ExpenseCard :=
  l.map renderCard

/-- C2 (amended): an expense whose rate is missing gets no
`convertedCost`, contributes nothing to the converted total or to any
per-category total, and its card still appears in the rendered list
(name, date, category) — but the card shows no amount at all, because
the amount row renders only when `convertedCost` is present. -/
theorem claim_C2_missing_rate (user : Option User) (trip : Trip)
    (rates : List ConversionRate) (l : List Expense) (e : Expense) (c : Money)
    (hc : e.cost = some c) (hcur : c.currency ≠ targetCurrency user trip)
    (hr : findRate rates c.currency (targetCurrency user trip) = none) :
    (convertExpense (targetCurrency user trip) rates e).convertedCost = none ∧
    (∀ x : Expense, x.convertedCost = none → ∀ l₁ l₂ : List Expense,
      totalExpenses (l₁ ++ x :: l₂) = totalExpenses (l₁ ++ l₂) ∧
      ∀ cc : String, lookupD (categoryTotals (l₁ ++ x :: l₂)) cc =
        lookupD (categoryTotals (l₁ ++ l₂)) cc) ∧
    (e ∈ l → renderCard (convertExpense (targetCurrency user trip) rates e) ∈
      expenseCards (convertExpenses user trip l rates)) ∧
    (renderCard (convertExpense (targetCurrency user trip) rates e)).amountShown = none ∧
    (renderCard (convertExpense (targetCurrency user trip) rates e)).nameShown = e.name := by
  refine ⟨?_, ?_, ?_, ?_, ?_⟩
  · simp [convertExpense, hc, hcur, hr]
  · intro x hx l₁ l₂
    constructor
    · simp [totalExpenses, amountOf, hx]
    · intro cc
      rw [categoryTotals_lookup, categoryTotals_lookup]
      by_cases h : (catOf x == cc) = true
      · simp [List.filter_append, List.filter_cons, h, amountOf, hx]
      · simp [List.filter_append, List.filter_cons, h]
  · intro he
    exact List.mem_map_of_mem renderCard
      (List.mem_map_of_mem (convertExpense (targetCurrency user trip) rates) he)
  · simp [renderCard, convertExpense, hc, hcur, hr]
  · simp [renderCard, convertExpense, hc, hcur, hr]

/-- Trip with a EUR budget, used as concrete conversion target. -/
def tripEur : Trip := { id := "t1", budget := some ⟨1000, "EUR"⟩ }

/-- A JPY expense with no supplied JPY to EUR rate. -/
def expenseJpy : Expense :=
  { id := "c", name := "Ramen", trip := "t1", cost := some ⟨30, "JPY"⟩ }

/-- Counterexample to C2 as stated: with no JPY rate the rendered card
of the 30 JPY expense shows no amount at all — in particular it does not
show the original cost amount. -/
theorem claim_C2_counterexample :
    expenseJpy.cost = some ⟨30, "JPY"⟩ ∧
    findRate [] "JPY" (targetCurrency none tripEur) = none ∧
    (renderCard (convertExpense (targetCurrency none tripEur) [] expenseJpy)).amountShown
      = none ∧
    (renderCard (convertExpense (targetCurrency none tripEur) [] expenseJpy)).amountShown
      ≠ some ⟨30, "JPY"⟩ := by
  decide

/-- Witness for C2 at the concrete JPY expense: the hypotheses of the
amended claim hold there and the card of the unconvertible expense is
still rendered, with its name but with no amount. -/
theorem claim_C2_missing_rate_witness :
    (renderCard (convertExpense (targetCurrency none tripEur) [] expenseJpy)).amountShown
        = none ∧
      (renderCard (convertExpense (targetCurrency none tripEur) [] expenseJpy)).nameShown
        = "Ramen" ∧
      renderCard (convertExpense (targetCurrency none tripEur) [] expenseJpy) ∈
        expenseCards (convertExpenses none tripEur [expenseJpy] []) := by
  have h := claim_C2_missing_rate none tripEur [] [expenseJpy] expenseJpy ⟨30, "JPY"⟩
    (by decide) (by decide) (by decide)
  exact ⟨h.2.2.2.1, h.2.2.2.2, h.2.2.1 (by decide)⟩

/-! ## The expense save flow (`onSave` in `ExpensesPanel`) -/

/-- JavaScript `String.prototype.trim`, modelled on the character list:
leading and trailing whitespace removed. -/
def strTrim (s : String) : String :=
  String.mk (((s.data.dropWhile Char.isWhitespace).reverse.dropWhile Char.isWhitespace).reverse)

/-- The modal form state of the panel: `''` inputs are modelled as the
empty string, the empty amount as `none`. -/
structure FormState where
  name : String := ""
  amount : Option ℚ := none
  currency : String := ""
  occurredOn : Option Int := none
  notes : String := ""
  category : Option String := none
  files : List String := []
  existingAttachments : List Attachment := []
deriving DecidableEq, Repr

/-- The `CreateExpense` payload the panel persists.  The optional
`convertedCost` field is carried solely so that its absence from every
built payload is a statable fact; no payload builder ever sets it. -/
structure CreateExpense where
  name : String
  trip : String
  cost : Money
  occurredOn : Option Int := none
  notes : Option String := none
  category : Option String := none
  attachmentReferences : List String := []
  convertedCost : Option Money := none
deriving DecidableEq, Repr

/-- The payload built by `onSave`: trimmed name, the entered cost value
and currency verbatim, the date passed through `fakeAsUtcString` when
present, trimmed notes or absent, the category or absent, and the merged
attachment id list (existing ids first, then the freshly uploaded
ids). -/
def mkExpensePayload (trip : Trip) (fs : FormState) (a : ℚ) (uploadedIds : List String)
    (fakeUtc : Int → Int) : CreateExpense :=
  { name := strTrim fs.name
    trip := trip.id
    cost := ⟨a, fs.currency⟩
    occurredOn := fs.occurredOn.map fakeUtc
    notes := if strTrim fs.notes = "" then none else some (strTrim fs.notes)
    category := fs.category.bind (fun c => if c = "" then none else some c)
    attachmentReferences := fs.existingAttachments.map Attachment.id ++ uploadedIds }

/-- A call issued against the expense repository by the save flow. -/
inductive RepoCall where
  | createCall (p : CreateExpense)
  | updateCall (id : String) (p : CreateExpense)
deriving DecidableEq, Repr

/-- The payload carried by a repository call. -/
def RepoCall.payload : RepoCall → CreateExpense
  | .createCall p => p
  | .updateCall _ p => p

/-- An error toast with a title and a message. -/
structure Notif where
  title : String
  message : String
deriving DecidableEq, Repr

/-- The observable outcome of one `onSave` invocation. -/
structure OnSaveResult where
  uploadCalled : Bool
  repoCalls : List RepoCall
  modalOpen : Bool
  formAfter : FormState
  errorNotif : Option Notif
  invalidatedQueries : Bool
deriving DecidableEq, Repr

/-- The guard `!name || !amount || !currency` of `onSave`, which is also
the `disabled` condition of the save button: true when the name is
empty, the amount is empty or zero, or the currency is empty. -/
def saveDisabled (fs : FormState) : Bool :=
  fs.name == "" ||
    (match fs.amount with
     | none => true
     | some a => a == 0) ||
    fs.currency == ""

/-- The reset form: blank fields with the currency defaulted from the
trip budget, else the user preference, else `USD`. -/
def resetFormState (trip : Trip) (user : Option User) : FormState :=
  { currency :=
      match trip.budget with
      | some b => b.currency
      | none =>
        match user.bind (fun u => u.currencyCode) with
        | some c => c
        | none => "USD" }

/-- The error toast title: the update variant when an expense is
selected for edit, the create variant otherwise. -/
def saveErrorTitle (sel : Option Expense) : String :=
  if sel.isSome then "Failed to update expense" else "Failed to create expense"

/-- The generic retry-later error toast of the save flow. -/
def saveErrorNotif (sel : Option Expense) : Notif :=
  ⟨saveErrorTitle sel, "Please try again later."⟩

/-- The no-op result of a rejected save: nothing called, modal open,
form untouched, no toast. -/
def saveNoOp (fs : FormState) : OnSaveResult :=
  { uploadCalled := false
    repoCalls := []
    modalOpen := true
    formAfter := fs
    errorNotif := none
    invalidatedQueries := false }

/-- The `onSave` flow of the panel.  The asynchronous environment is
passed in: `uploadResult` is the outcome of the attachment upload
(uploaded attachment ids, or failure) and `repoOk` the outcome of the
create/update call.  The guard rejects first; then the upload runs; on
upload success one create call (no expense selected) or one update call
(expense selected) is issued with the built payload; any failure is
caught and surfaced as the generic retry-later toast with the modal kept
open and the form untouched; on success the caches are invalidated and
the modal closes with the form reset. -/
def onSave (trip : Trip) (user : Option User) (sel : Option Expense) (fs : FormState)
    (fakeUtc : Int → Int) (uploadResult : Except Unit (List String)) (repoOk : Bool) :
    OnSaveResult :=
  if saveDisabled fs then saveNoOp fs
  else
    match uploadResult with
    | .error _ =>
      { uploadCalled := true
        repoCalls := []
        modalOpen := true
        formAfter := fs
        errorNotif := some (saveErrorNotif sel)
        invalidatedQueries := false }
    | .ok ids =>
      let payload := mkExpensePayload trip fs (fs.amount.getD 0) ids fakeUtc
      let call :=
        match sel with
        | some e => RepoCall.updateCall e.id payload
        | none => RepoCall.createCall payload
      if repoOk then
        { uploadCalled := true
          repoCalls := [call]
          modalOpen := false
          formAfter := resetFormState trip user
          errorNotif := none
          invalidatedQueries := true }
      else
        { uploadCalled := true
          repoCalls := [call]
          modalOpen := true
          formAfter := fs
          errorNotif := some (saveErrorNotif sel)
          invalidatedQueries := false }

/-- C1 (amended): the save flow proceeds — and the save button is
enabled — exactly when the name is nonempty, an amount is present and
nonzero, and the currency is nonempty; on every other input the save is
a no-op with the modal kept open.  The truthiness guard does not require
the amount to be positive: a negative amount passes it. -/
theorem claim_C1_save_guard (trip : Trip) (user : Option User) (sel : Option Expense)
    (fs : FormState) (fakeUtc : Int → Int) (up : Except Unit (List String)) (rok : Bool) :
    (saveDisabled fs = true → onSave trip user sel fs fakeUtc up rok = saveNoOp fs) ∧
    (saveDisabled fs = false → (onSave trip user sel fs fakeUtc up rok).uploadCalled = true) ∧
    (saveDisabled fs = false ↔
      fs.name ≠ "" ∧ (∃ a, fs.amount = some a ∧ a ≠ 0) ∧ fs.currency ≠ "") := by
  refine ⟨?_, ?_, ?_⟩
  · intro h; simp [onSave, h]
  · intro h
    cases up <;> cases rok <;> simp [onSave, h]
  · constructor
    · intro h
      cases ha : fs.amount with
      | none => simp [saveDisabled, ha] at h
      | some a =>
        simp [saveDisabled, ha] at h
        refine ⟨?_, ⟨a, rfl, ?_⟩, ?_⟩ <;> tauto
    · rintro ⟨h1, ⟨a, ha, ha0⟩, h3⟩
      simp [saveDisabled, h1, ha, ha0, h3]

/-- Form input with a negative amount: name and currency present. -/
def negativeAmountForm : FormState :=
  { name := "Taxi", amount := some (-5), currency := "USD" }

/-- Counterexample to C1 as stated: with an amount of `-5` — not a
positive number — the save flow is not a no-op: it calls the upload and
issues a repository call. -/
theorem claim_C1_counterexample :
    ¬ (0 < (-5 : ℚ)) ∧
    negativeAmountForm.amount = some (-5) ∧
    (onSave tripEur none none negativeAmountForm (fun t => t) (.ok []) true).uploadCalled = true ∧
    (onSave tripEur none none negativeAmountForm (fun t => t) (.ok []) true).repoCalls.length = 1 := by
  refine ⟨by norm_num, rfl, rfl, rfl⟩

/-- Form input with all three required fields present and a positive
amount. -/
def validForm : FormState :=
  { name := "Taxi", amount := some 5, currency := "USD" }

/-- Form input with an empty name. -/
def namelessForm : FormState :=
  { name := "", amount := some 5, currency := "USD" }

/-- Witness for C1: an empty name blocks the save (no-op), and a
complete form passes the guard. -/
theorem claim_C1_save_guard_witness :
    (onSave tripEur none none namelessForm (fun t => t) (.ok []) true = saveNoOp namelessForm) ∧
    (onSave tripEur none none validForm (fun t => t) (.ok []) true).uploadCalled = true :=
  ⟨(claim_C1_save_guard tripEur none none namelessForm (fun t => t) (.ok []) true).1 (by decide),
   (claim_C1_save_guard tripEur none none validForm (fun t => t) (.ok []) true).2.1 (by decide)⟩

/-- C8: when the upload or the repository call fails, the failure is
caught and surfaced as the generic titled retry-later toast, at most one
repository call was issued (no automatic retry), no cache was
invalidated, and the modal stays open with every form field keeping its
pre-save value. -/
theorem claim_C8_save_failure (trip : Trip) (user : Option User) (sel : Option Expense)
    (fs : FormState) (fakeUtc : Int → Int) (up : Except Unit (List String)) (rok : Bool)
    (hg : saveDisabled fs = false)
    (hfail : up = Except.error () ∨ rok = false) :
    (onSave trip user sel fs fakeUtc up rok).errorNotif = some (saveErrorNotif sel) ∧
    (onSave trip user sel fs fakeUtc up rok).modalOpen = true ∧
    (onSave trip user sel fs fakeUtc up rok).formAfter = fs ∧
    (onSave trip user sel fs fakeUtc up rok).repoCalls.length ≤ 1 ∧
    (onSave trip user sel fs fakeUtc up rok).invalidatedQueries = false ∧
    saveErrorNotif sel =
      ⟨if sel.isSome then "Failed to update expense" else "Failed to create expense",
        "Please try again later."⟩ := by
  rcases hfail with h | h
  · subst h
    simp [onSave, hg, saveErrorNotif, saveErrorTitle]
  · subst h
    cases up with
    | error e => simp [onSave, hg, saveErrorNotif, saveErrorTitle]
    | ok ids => simp [onSave, hg, saveErrorNotif, saveErrorTitle]

/-- Witness for C8: a failing upload on a valid create form leaves the
modal open with the form untouched and shows the create-variant
retry-later toast. -/
theorem claim_C8_save_failure_witness :
    (onSave tripEur none none validForm (fun t => t) (.error ()) true).errorNotif =
        some ⟨"Failed to create expense", "Please try again later."⟩ ∧
      (onSave tripEur none none validForm (fun t => t) (.error ()) true).modalOpen = true ∧
      (onSave tripEur none none validForm (fun t => t) (.error ()) true).formAfter = validForm := by
  have h := claim_C8_save_failure tripEur none none validForm (fun t => t) (.error ()) true
    (by decide) (Or.inl rfl)
  exact ⟨h.1, h.2.1, h.2.2.1⟩

/-! ## The expense delete flow (`handleDelete` in `ExpensesPanel`) -/

/-- The observable outcome of one `handleDelete` invocation:
whether (and for which expense name) the confirmation dialog was shown,
which expense id a delete call was issued for, whether the deletion
toast was shown and the modal closed, whether anything escaped to the
caller, whether any error toast was shown, and whether the expense list
query was invalidated. -/
structure DeleteOutcome where
  confirmShownFor : Option String
  deleteIssued : Option String
  ackShown : Bool
  modalClosed : Bool
  raised : Bool
  errorReported : Bool
  listInvalidated : Bool
deriving DecidableEq, Repr

/-- The `handleDelete` flow of the panel: a no-op without a selected
expense; otherwise a confirmation dialog naming the expense; on
confirmation the delete mutation is fired, the deletion toast shown and
the modal closed immediately — before and independent of the delete
outcome; the mutation has no error handler, so a failing delete is
swallowed (never raised, no error toast), and only a successful delete
invalidates the expense list query. -/
def handleDelete (sel : Option Expense) (confirmed : Bool) (deleteSucceeds : Bool) :
    DeleteOutcome :=
  match sel with
  | none =>
    { confirmShownFor := none, deleteIssued := none, ackShown := false,
      modalClosed := false, raised := false, errorReported := false,
      listInvalidated := false }
  | some e =>
    if confirmed then
      { confirmShownFor := some e.name, deleteIssued := some e.id, ackShown := true,
        modalClosed := true, raised := false, errorReported := false,
        listInvalidated := deleteSucceeds }
    else
      { confirmShownFor := some e.name, deleteIssued := none, ackShown := false,
        modalClosed := false, raised := false, errorReported := false,
        listInvalidated := false }

/-- C7 (amended): the delete call is issued only after explicit
confirmation in a dialog naming the expense; the deletion acknowledgment
and the closing of the edit surface happen at confirmation time,
regardless of the delete outcome; a failing delete is caught — nothing
is raised to the caller — but it is not reported either, since the
mutation has no error handler. -/
theorem claim_C7_delete_flow (sel : Option Expense) (confirmed deleteSucceeds : Bool) :
    ((handleDelete sel confirmed deleteSucceeds).deleteIssued.isSome →
      confirmed = true ∧ ∃ e, sel = some e ∧
        (handleDelete sel confirmed deleteSucceeds).deleteIssued = some e.id ∧
        (handleDelete sel confirmed deleteSucceeds).confirmShownFor = some e.name) ∧
    (∀ e : Expense, sel = some e → confirmed = true →
      (handleDelete sel confirmed deleteSucceeds).deleteIssued = some e.id ∧
      (handleDelete sel confirmed deleteSucceeds).ackShown = true ∧
      (handleDelete sel confirmed deleteSucceeds).modalClosed = true) ∧
    (handleDelete sel confirmed deleteSucceeds).raised = false ∧
    (handleDelete sel confirmed deleteSucceeds).errorReported = false ∧
    ((handleDelete sel confirmed deleteSucceeds).listInvalidated = true ↔
      sel.isSome ∧ confirmed = true ∧ deleteSucceeds = true) := by
  cases sel with
  | none => cases confirmed <;> simp [handleDelete]
  | some e =>
    cases confirmed <;> cases deleteSucceeds <;> simp [handleDelete]

/-- The expense named in the C7 delete scenario. -/
def expenseX : Expense := { id := "X", name := "Hotel night" }

/-- Counterexample to C7 as stated: a confirmed delete whose repository
call fails still shows the deletion acknowledgment (it was shown at
confirmation time), and no failure is ever reported — there is no error
handler on the delete mutation. -/
theorem claim_C7_counterexample :
    (handleDelete (some expenseX) true false).ackShown = true ∧
    (handleDelete (some expenseX) true false).modalClosed = true ∧
    (handleDelete (some expenseX) true false).errorReported = false ∧
    (handleDelete (some expenseX) true false).listInvalidated = false := by
  decide

/-- Witness for C7: the confirmed successful delete of the concrete
expense issues the delete for its id after a dialog naming it. -/
theorem claim_C7_delete_flow_witness :
    (handleDelete (some expenseX) true true).deleteIssued = some "X" ∧
      (handleDelete (some expenseX) true true).ackShown = true ∧
      (handleDelete (some expenseX) true true).modalClosed = true :=
  (claim_C7_delete_flow (some expenseX) true true).2.1 expenseX rfl rfl

/-! ## The flight form submit flow (`handleFormSubmit` in `FlightForm`) -/

/-- A partial expense payload for `updateExpense`: only the present
fields are sent.  The cost-only update of the flight form sets only
`cost`; the optional `convertedCost` field is carried solely so that its
absence from every sent payload is a statable fact. -/
structure PartialExpense where
  name : Option String := none
  cost : Option Money := none
  occurredOn : Option Int := none
  notes : Option String := none
  category : Option String := none
  attachmentReferences : Option (List String) := none
  convertedCost : Option Money := none
deriving DecidableEq, Repr

/-- The form values of the flight form; origin and destination are
represented by their resolved display codes. -/
structure FlightValues where
  origin : String
  destination : String
  departureTime : Int
  arrivalTime : Int
  provider : String := ""
  reservation : String := ""
  cost : Option ℚ := none
  currencyCode : String := "USD"
  flightNumber : String := ""
  seats : String := ""
deriving DecidableEq, Repr

/-- The fields of a stored transportation record that the submit flow
touches. -/
structure StoredTransportation where
  id : String
  expenseId : Option String := none
  attachmentReferences : List String := []
deriving DecidableEq, Repr

/-- The metadata block of the transportation payload. -/
structure TransportationMetadata where
  provider : String := ""
  reservation : String := ""
  origin : String := ""
  destination : String := ""
  flightNumber : String := ""
  seats : String := ""
deriving DecidableEq, Repr

/-- The `CreateTransportation` payload.  `expenseId` and
`attachmentReferences` are optional field entries: they are set only on
the create path and absent (`none`) from the update payload. -/
structure TransportationPayload where
  type : String
  origin : String
  destination : String
  costValue : Option ℚ
  costCurrency : String
  departureTime : Int
  arrivalTime : Int
  trip : String
  metadata : TransportationMetadata
  attachmentReferences : Option (List String) := none
  expenseId : Option String := none
deriving DecidableEq, Repr

/-- An expense repository call issued by the flight submit flow. -/
inductive ExpenseAction where
  | updateCost (id : String) (p : PartialExpense)
  | createNew (p : CreateExpense)
  | deleteById (id : String)
deriving DecidableEq, Repr

/-- The transportation repository call issued by the flight submit
flow. -/
inductive TransportationCall where
  | createEntry (p : TransportationPayload)
  | updateEntry (id : String) (p : TransportationPayload)
deriving DecidableEq, Repr

/-- The observable outcome of one flight form submit (success
environment): the expense repository calls issued, the expense id linked
at the end of the expense step, the transportation call issued, the
mutated in-memory transportation object, and — for the update path —
the stored record after the partial update is applied. -/
structure FlightSubmitResult where
  expenseActions : List ExpenseAction
  finalExpenseId : Option String
  transportationCall : TransportationCall
  localTransportation : Option StoredTransportation
  persistedTransportation : Option StoredTransportation
deriving DecidableEq, Repr

/-- The linked expense id after validation against the expense map:
a linked id missing from a supplied map is dropped; without a map it is
kept. -/
def resolvedExpenseId (tr : Option StoredTransportation)
    (m : Option (List (String × Expense))) : Option String :=
  match tr.bind (fun t => t.expenseId), m with
  | some i, some entries => if (entries.lookup i).isSome then some i else none
  | x, _ => x

/-- The guard `values.cost && values.cost > 0`: a present, positive
cost. -/
def hasPositiveCost (values : FlightValues) : Bool :=
  match values.cost with
  | some c => decide (0 < c)
  | none => false

/-- The expense created for a costed flight without a valid linked
expense: named from the route, dated at departure, categorized
`transportation`. -/
def flightExpensePayload (trip : Trip) (values : FlightValues) (fakeUtc : Int → Int) :
    CreateExpense :=
  { name := "Flight: " ++ values.origin ++ " to " ++ values.destination
    trip := trip.id
    cost := ⟨values.cost.getD 0, values.currencyCode⟩
    occurredOn := some (fakeUtc values.departureTime)
    category := some "transportation" }

/-- The cost-only partial update sent for an existing linked expense. -/
def flightCostUpdate (values : FlightValues) : PartialExpense :=
  { cost := some ⟨values.cost.getD 0, values.currencyCode⟩ }

/-- The transportation payload built on every submit; it carries no
`expenseId` and no `attachmentReferences` entry — those are added only
on the create path. -/
def transportationBasePayload (trip : Trip) (values : FlightValues) (fakeUtc : Int → Int) :
    TransportationPayload :=
  { type := "flight"
    origin := values.origin
    destination := values.destination
    costValue := values.cost
    costCurrency := values.currencyCode
    departureTime := fakeUtc values.departureTime
    arrivalTime := fakeUtc values.arrivalTime
    trip := trip.id
    metadata :=
      { provider := values.provider
        reservation := values.reservation
        origin := values.origin
        destination := values.destination
        flightNumber := values.flightNumber
        seats := values.seats } }

/-- Partial-update semantics of the backend collection: a field entry
present in the payload overwrites the stored value; an absent entry
leaves the stored value unchanged. -/
def applyTransportationUpdate (s : StoredTransportation) (p : TransportationPayload) :
    StoredTransportation :=
  { s with
    expenseId :=
      match p.expenseId with
      | some v => some v
      | none => s.expenseId
    attachmentReferences := p.attachmentReferences.getD s.attachmentReferences }

/-- The expense step of the flight submit flow: update the cost of a
valid linked expense when the cost is positive, create a fresh
transportation expense when the cost is positive without a valid link,
delete the linked expense when the cost is absent or not positive. -/
def flightExpenseStep (trip : Trip) (tr : Option StoredTransportation)
    (m : Option (List (String × Expense))) (values : FlightValues) (fakeUtc : Int → Int)
    (newExpenseId : String) : List ExpenseAction × Option String :=
  if hasPositiveCost values then
    match resolvedExpenseId tr m with
    | some i => ([.updateCost i (flightCostUpdate values)], some i)
    | none => ([.createNew (flightExpensePayload trip values fakeUtc)], some newExpenseId)
  else
    match resolvedExpenseId tr m with
    | some i => ([.deleteById i], none)
    | none => ([], none)

/-- The flight form submit flow in a success environment:
`uploadedIds` are the ids of the freshly uploaded attachments,
`newExpenseId` the id the repository would assign to a created expense.
On the update path the existing in-memory transportation object gets the
merged attachment ids and the new expense link, but the update payload
itself carries neither; on the create path the payload carries both. -/
def handleFlightSubmit (trip : Trip) (tr : Option StoredTransportation)
    (m : Option (List (String × Expense))) (values : FlightValues) (fakeUtc : Int → Int)
    (uploadedIds : List String) (exitingAttachmentIds : List String)
    (newExpenseId : String) : FlightSubmitResult :=
  let step := flightExpenseStep trip tr m values fakeUtc newExpenseId
  let base := transportationBasePayload trip values fakeUtc
  match tr with
  | some t =>
    { expenseActions := step.1
      finalExpenseId := step.2
      transportationCall := .updateEntry t.id base
      localTransportation := some
        { t with
          attachmentReferences := exitingAttachmentIds ++ uploadedIds
          expenseId := step.2 }
      persistedTransportation := some (applyTransportationUpdate t base) }
  | none =>
    { expenseActions := step.1
      finalExpenseId := step.2
      transportationCall := .createEntry
        { base with attachmentReferences := some uploadedIds, expenseId := step.2 }
      localTransportation := none
      persistedTransportation := none }

/-- C10 (amended): the expense step acts exactly by cost positivity and
link validity — cost-only update of a valid linked expense, creation of
a `transportation` expense dated at departure when no valid link exists,
deletion of the linked expense when the cost is absent or not positive —
and the expense link produced by the step is present exactly when the
cost is positive.  The create-transportation payload carries that link;
the update-transportation payload carries no expense entry at all, so
under partial-update semantics the persisted record keeps its previous
expense reference and only the in-memory object receives the new
link. -/
theorem claim_C10_flight_expense_link (trip : Trip) (tr : Option StoredTransportation)
    (m : Option (List (String × Expense))) (values : FlightValues) (fakeUtc : Int → Int)
    (uploadedIds exitingAttachmentIds : List String) (nid : String) :
    (∀ c : ℚ, values.cost = some c → 0 < c → ∀ i, resolvedExpenseId tr m = some i →
      (handleFlightSubmit trip tr m values fakeUtc uploadedIds exitingAttachmentIds
          nid).expenseActions =
        [.updateCost i { cost := some ⟨c, values.currencyCode⟩ }] ∧
      (handleFlightSubmit trip tr m values fakeUtc uploadedIds exitingAttachmentIds
          nid).finalExpenseId = some i) ∧
    (∀ c : ℚ, values.cost = some c → 0 < c → resolvedExpenseId tr m = none →
      (handleFlightSubmit trip tr m values fakeUtc uploadedIds exitingAttachmentIds
          nid).expenseActions = [.createNew (flightExpensePayload trip values fakeUtc)] ∧
      (flightExpensePayload trip values fakeUtc).category = some "transportation" ∧
      (flightExpensePayload trip values fakeUtc).occurredOn =
        some (fakeUtc values.departureTime) ∧
      (handleFlightSubmit trip tr m values fakeUtc uploadedIds exitingAttachmentIds
          nid).finalExpenseId = some nid) ∧
    (hasPositiveCost values = false → ∀ i, resolvedExpenseId tr m = some i →
      (handleFlightSubmit trip tr m values fakeUtc uploadedIds exitingAttachmentIds
          nid).expenseActions = [.deleteById i] ∧
      (handleFlightSubmit trip tr m values fakeUtc uploadedIds exitingAttachmentIds
          nid).finalExpenseId = none) ∧
    (hasPositiveCost values = false → resolvedExpenseId tr m = none →
      (handleFlightSubmit trip tr m values fakeUtc uploadedIds exitingAttachmentIds
          nid).expenseActions = [] ∧
      (handleFlightSubmit trip tr m values fakeUtc uploadedIds exitingAttachmentIds
          nid).finalExpenseId = none) ∧
    ((handleFlightSubmit trip tr m values fakeUtc uploadedIds exitingAttachmentIds
        nid).finalExpenseId.isSome = hasPositiveCost values) ∧
    (tr = none →
      (handleFlightSubmit trip tr m values fakeUtc uploadedIds exitingAttachmentIds
          nid).transportationCall =
        .createEntry { transportationBasePayload trip values fakeUtc with
          attachmentReferences := some uploadedIds
          expenseId := (handleFlightSubmit trip tr m values fakeUtc uploadedIds
            exitingAttachmentIds nid).finalExpenseId }) ∧
    (∀ t, tr = some t →
      (handleFlightSubmit trip tr m values fakeUtc uploadedIds exitingAttachmentIds
          nid).transportationCall =
        .updateEntry t.id (transportationBasePayload trip values fakeUtc) ∧
      (transportationBasePayload trip values fakeUtc).expenseId = none ∧
      (handleFlightSubmit trip tr m values fakeUtc uploadedIds exitingAttachmentIds
          nid).persistedTransportation =
        some (applyTransportationUpdate t (transportationBasePayload trip values fakeUtc)) ∧
      (applyTransportationUpdate t (transportationBasePayload trip values fakeUtc)).expenseId =
        t.expenseId ∧
      (handleFlightSubmit trip tr m values fakeUtc uploadedIds exitingAttachmentIds
          nid).localTransportation =
        some { t with
          attachmentReferences := exitingAttachmentIds ++ uploadedIds
          expenseId := (handleFlightSubmit trip tr m values fakeUtc uploadedIds
            exitingAttachmentIds nid).finalExpenseId }) := by
  refine ⟨?_, ?_, ?_, ?_, ?_, ?_, ?_⟩
  · intro c hc hpos i hi
    have hhc : hasPositiveCost values = true := by simp [hasPositiveCost, hc, hpos]
    cases tr <;>
      simp [handleFlightSubmit, flightExpenseStep, hhc, hi, flightCostUpdate, hc]
  · intro c hc hpos hnone
    have hhc : hasPositiveCost values = true := by simp [hasPositiveCost, hc, hpos]
    cases tr <;>
      simp [handleFlightSubmit, flightExpenseStep, hhc, hnone, flightExpensePayload]
  · intro hneg i hi
    cases tr <;> simp [handleFlightSubmit, flightExpenseStep, hneg, hi]
  · intro hneg hnone
    cases tr <;> simp [handleFlightSubmit, flightExpenseStep, hneg, hnone]
  · cases hpc : hasPositiveCost values <;> cases hr : resolvedExpenseId tr m <;>
      cases tr <;> simp [handleFlightSubmit, flightExpenseStep, hpc, hr]
  · intro h
    subst h
    simp [handleFlightSubmit]
  · intro t ht
    subst ht
    simp [handleFlightSubmit, applyTransportationUpdate, transportationBasePayload]

/-- An existing transportation record linked to expense `E1`. -/
def storedFlight : StoredTransportation := { id := "T1", expenseId := some "E1" }

/-- The linked expense record of the stored flight. -/
def expenseE1 : Expense := { id := "E1" }

/-- Flight form values with the cost cleared. -/
def clearedCostValues : FlightValues :=
  { origin := "SFO", destination := "JFK", departureTime := 0, arrivalTime := 1, cost := none }

/-- Flight form values with a positive cost of 100. -/
def costedValues : FlightValues :=
  { origin := "SFO", destination := "JFK", departureTime := 0, arrivalTime := 1,
    cost := some 100 }

/-- Counterexample to C10 as stated: on an existing transportation whose
cost is cleared, the linked expense is deleted, yet the persisted
transportation record still references the deleted expense `E1` — the
update payload carries no expense entry, so the stored reference is
never cleared. -/
theorem claim_C10_counterexample :
    hasPositiveCost clearedCostValues = false ∧
    (handleFlightSubmit tripEur (some storedFlight) (some [("E1", expenseE1)])
        clearedCostValues (fun t => t) [] [] "NEW").expenseActions =
      [ExpenseAction.deleteById "E1"] ∧
    (handleFlightSubmit tripEur (some storedFlight) (some [("E1", expenseE1)])
        clearedCostValues (fun t => t) [] [] "NEW").persistedTransportation =
      some { id := "T1", expenseId := some "E1", attachmentReferences := [] } := by
  decide

/-- Witness for C10: a positive cost on a validly linked expense yields
exactly the cost-only update of that expense. -/
theorem claim_C10_flight_expense_link_witness :
    (handleFlightSubmit tripEur (some storedFlight) (some [("E1", expenseE1)])
        costedValues (fun t => t) [] [] "NEW").expenseActions =
      [.updateCost "E1" { cost := some ⟨100, "USD"⟩ }] ∧
    (handleFlightSubmit tripEur (some storedFlight) (some [("E1", expenseE1)])
        costedValues (fun t => t) [] [] "NEW").finalExpenseId = some "E1" :=
  (claim_C10_flight_expense_link tripEur (some storedFlight) (some [("E1", expenseE1)])
    costedValues (fun t => t) [] [] "NEW").1 100 rfl (by norm_num) "E1" (by decide)

/-- C3: every expense payload persisted by the panel save flow or the
flight form carries exactly the cost value and currency the user
entered, and no payload ever carries a converted cost. -/
theorem claim_C3_persisted_cost_verbatim :
    (∀ (trip : Trip) (user : Option User) (sel : Option Expense) (fs : FormState)
        (fakeUtc : Int → Int) (up : Except Unit (List String)) (rok : Bool) (a : ℚ),
      fs.amount = some a →
      ∀ c ∈ (onSave trip user sel fs fakeUtc up rok).repoCalls,
        c.payload.cost = ⟨a, fs.currency⟩ ∧ c.payload.convertedCost = none) ∧
    (∀ (trip : Trip) (values : FlightValues) (fakeUtc : Int → Int) (cv : ℚ),
      values.cost = some cv →
      flightCostUpdate values = { cost := some ⟨cv, values.currencyCode⟩ } ∧
      (flightExpensePayload trip values fakeUtc).cost = ⟨cv, values.currencyCode⟩ ∧
      (flightExpensePayload trip values fakeUtc).convertedCost = none) ∧
    (∀ (trip : Trip) (tr : Option StoredTransportation)
        (m : Option (List (String × Expense))) (values : FlightValues)
        (fakeUtc : Int → Int) (uploadedIds exitingAttachmentIds : List String)
        (nid : String),
      ∀ act ∈ (handleFlightSubmit trip tr m values fakeUtc uploadedIds
          exitingAttachmentIds nid).expenseActions,
        (∃ i, act = .updateCost i (flightCostUpdate values)) ∨
        act = .createNew (flightExpensePayload trip values fakeUtc) ∨
        (∃ i, act = .deleteById i)) := by
  refine ⟨?_, ?_, ?_⟩
  · intro trip user sel fs fakeUtc up rok a ha c hc
    cases hg : saveDisabled fs with
    | true => simp [onSave, hg, saveNoOp] at hc
    | false =>
      cases up with
      | error e => simp [onSave, hg] at hc
      | ok ids =>
        cases rok <;>
          · simp [onSave, hg] at hc
            cases sel <;> simp_all [RepoCall.payload, mkExpensePayload, ha]
  · intro trip values fakeUtc cv hcv
    refine ⟨?_, ?_, rfl⟩
    · simp [flightCostUpdate, hcv]
    · simp [flightExpensePayload, hcv]
  · intro trip tr m values fakeUtc uploadedIds exitingAttachmentIds nid act hact
    have hstep : act ∈ (flightExpenseStep trip tr m values fakeUtc nid).1 := by
      cases tr <;> simpa [handleFlightSubmit] using hact
    unfold flightExpenseStep at hstep
    by_cases hpc : hasPositiveCost values = true
    · cases hr : resolvedExpenseId tr m <;> simp [hpc, hr] at hstep
      · exact Or.inr (Or.inl hstep)
      · exact Or.inl ⟨_, hstep⟩
    · simp at hpc
      cases hr : resolvedExpenseId tr m <;> simp [hpc, hr] at hstep
      exact Or.inr (Or.inr ⟨_, hstep⟩)

/-- The concrete repository call issued by a valid create-mode save. -/
def sampleSaveCall : RepoCall :=
  RepoCall.createCall (mkExpensePayload tripEur validForm 5 [] (fun t => t))

/-- Witness for C3: the payload of the concrete create call carries the
entered cost verbatim and no converted cost. -/
theorem claim_C3_persisted_cost_verbatim_witness :
    sampleSaveCall.payload.cost = ⟨5, "USD"⟩ ∧
      sampleSaveCall.payload.convertedCost = none :=
  claim_C3_persisted_cost_verbatim.1 tripEur none none validForm (fun t => t)
    (.ok []) true 5 rfl sampleSaveCall (by decide)

/-! ## The expense data-access module (`listExpenses`) -/

/-- Presence flag of the stored date: an absent date sorts below every
present date under the descending backend sort. -/
def occFlag (e : Expense) : Int :=
  if e.occurredOn.isSome then 1 else 0

/-- The stored date value, with zero for an absent date (only compared
between rows of equal presence flag). -/
def occVal (e : Expense) : Int :=
  e.occurredOn.getD 0

/-- The backend collection order `-occurredOn,-created`: descending by
the stored date (absent dates last), ties broken descending by creation
time. -/
def pbExpenseLe (a b : Expense) : Prop :=
  occFlag b < occFlag a ∨ (occFlag b = occFlag a ∧
    (occVal b < occVal a ∨ (occVal b = occVal a ∧ b.created ≤ a.created)))

instance : DecidableRel pbExpenseLe := fun a b =>
  inferInstanceAs (Decidable (occFlag b < occFlag a ∨ (occFlag b = occFlag a ∧
    (occVal b < occVal a ∨ (occVal b = occVal a ∧ b.created ≤ a.created)))))

theorem pbExpenseLe_total (a b : Expense) : pbExpenseLe a b ∨ pbExpenseLe b a := by
  unfold pbExpenseLe
  omega

theorem pbExpenseLe_trans (a b c : Expense) :
    pbExpenseLe a b → pbExpenseLe b c → pbExpenseLe a c := by
  unfold pbExpenseLe
  omega

/-- The paged list call of the backend collection
(`getList(page, perPage, ...)`): the matching rows in collection order,
restricted to the requested page. -/
def pbGetList (db : List Expense) (page perPage : Nat) (pred : Expense → Bool) :
    List Expense :=
  (((db.filter pred).insertionSort pbExpenseLe).drop ((page - 1) * perPage)).take perPage

/-- The per-row mapping of `listExpenses`: the stored date converted to
a browser-local date when present, left unchanged when absent; the
conversion itself is the abstract parameter `conv`. -/
def browserView (conv : Int → Int) (e : Expense) : Expense :=
  { e with occurredOn := e.occurredOn.map conv }

/-- The `listExpenses` call of the data-access module: the first page of
at most 200 rows filtered to the trip, sorted `-occurredOn,-created`,
each row mapped through the browser-date conversion. -/
def listExpenses (conv : Int → Int) (db : List Expense) (tripId : String) : List Expense :=
  (pbGetList db 1 200 (fun e => e.trip == tripId)).map (browserView conv)

/-- C9: `listExpenses` returns exactly the first page of at most 200
records filtered to the trip, sorted descending by date then creation
time, with `occurredOn` converted when present and unchanged when
absent; a trip with more than 200 matching records is silently truncated
to 200. -/
theorem claim_C9_list_expenses (conv : Int → Int) (db : List Expense) (tid : String) :
    listExpenses conv db tid =
      (((db.filter (fun e => e.trip == tid)).insertionSort pbExpenseLe).take 200).map
        (browserView conv) ∧
    (listExpenses conv db tid).length =
      min (db.filter (fun e => e.trip == tid)).length 200 ∧
    (∀ x ∈ listExpenses conv db tid, x.trip = tid) ∧
    (∀ x ∈ listExpenses conv db tid, ∃ e ∈ db, e.trip = tid ∧
      x = browserView conv e ∧ x.occurredOn = e.occurredOn.map conv) ∧
    (((db.filter (fun e => e.trip == tid)).insertionSort pbExpenseLe).take 200).Pairwise
      pbExpenseLe ∧
    (200 < (db.filter (fun e => e.trip == tid)).length →
      (listExpenses conv db tid).length = 200) := by
  have hmain : listExpenses conv db tid =
      (((db.filter (fun e => e.trip == tid)).insertionSort pbExpenseLe).take 200).map
        (browserView conv) := by
    simp [listExpenses, pbGetList]
  have hsorted :
      (((db.filter (fun e => e.trip == tid)).insertionSort pbExpenseLe).take 200).Pairwise
        pbExpenseLe := by
    haveI : IsTotal Expense pbExpenseLe := ⟨pbExpenseLe_total⟩
    haveI : IsTrans Expense pbExpenseLe := ⟨pbExpenseLe_trans⟩
    exact List.Pairwise.sublist (List.take_sublist 200 _)
      (List.sorted_insertionSort pbExpenseLe _)
  have hmem : ∀ x ∈ listExpenses conv db tid, ∃ e ∈ db, e.trip = tid ∧
      x = browserView conv e ∧ x.occurredOn = e.occurredOn.map conv := by
    intro x hx
    rw [hmain] at hx
    obtain ⟨e, he, rfl⟩ := List.mem_map.mp hx
    have he1 : e ∈ (db.filter (fun e => e.trip == tid)).insertionSort pbExpenseLe :=
      List.take_subset 200 _ he
    have he2 : e ∈ db.filter (fun e => e.trip == tid) :=
      (List.mem_insertionSort pbExpenseLe).mp he1
    obtain ⟨hdb, hpred⟩ := List.mem_filter.mp he2
    exact ⟨e, hdb, by simpa using hpred, rfl, rfl⟩
  refine ⟨hmain, ?_, ?_, hmem, hsorted, ?_⟩
  · rw [hmain]
    simp [List.length_take, Nat.min_comm]
  · intro x hx
    obtain ⟨e, _, htrip, rfl, _⟩ := hmem x hx
    simpa [browserView] using htrip
  · intro hlen
    rw [hmain]
    simp [List.length_take]
    omega

/-- A small backend collection with rows over two trips. -/
def sampleDb : List Expense :=
  [{ id := "1", trip := "t1", occurredOn := some 10, created := 1 },
   { id := "2", trip := "t2", occurredOn := some 50, created := 2 },
   { id := "3", trip := "t1", occurredOn := none, created := 3 },
   { id := "4", trip := "t1", occurredOn := some 20, created := 4 }]

/-- Witness for C9 at the concrete collection: only the rows of trip
`t1`, newest first with the dateless row last, with present dates
converted by the concrete browser shift. -/
theorem claim_C9_list_expenses_witness :
    listExpenses (fun t => t + 7) sampleDb "t1" =
      [{ id := "4", trip := "t1", occurredOn := some 27, created := 4 },
       { id := "1", trip := "t1", occurredOn := some 17, created := 1 },
       { id := "3", trip := "t1", occurredOn := none, created := 3 }] ∧
    (∀ x ∈ listExpenses (fun t => t + 7) sampleDb "t1", x.trip = "t1") :=
  ⟨by decide,
   fun x hx => (claim_C9_list_expenses (fun t => t + 7) sampleDb "t1").2.2.1 x hx⟩
